import Mathlib

/-!
Verification development for the WebDeploy backend (AI_Pipeline repository).

This file gives a shallow embedding, in Lean, of the pieces of the backend
that the verified properties are about:

* the pipeline orchestrator loop (`backend/services/pipeline_orchestrator.py`),
* the global pipeline deadline wrapper (`PipelineOrchestrator.run`),
* startup crash recovery and the stale-deployment watchdog (`backend/main.py`),
* the idempotent resource-provisioning operations of the demo deployer
  (`backend/infra/demo_deployer.py`),
* the global-operation poller (`backend/infra/gcp_helpers.py`),
* demo teardown and the deployment-deletion API route
  (`backend/api/routes/deployments.py`),
* the WebSocket log broadcast (`backend/api/dependencies.py`).

External collaborators (the database client, the GCP control plane, the email
service, the event loop) are modelled as explicit inputs: handler outcomes are
`Except String Unit` values, control-plane responses are data passed to the
embedded functions, and wall-clock time is threaded explicitly where a claim
needs it.
-/

set_option maxHeartbeats 1000000

namespace WebDeploy

/-! ### Enumerations (`backend/models/enums.py`) -/

/-- Pipeline steps, in their fixed order (`PipelineStep` in `enums.py`). -/
inductive PipelineStep
  | EXTRACT
  | AI_INSPECT
  | AI_FIX
  | BUILD
  | VERIFY
  | INFRA
  | UPLOAD
  | NOTIFY
  deriving DecidableEq, Repr

/-- Position of a step in the fixed order `_PIPELINE_STEPS`. -/
def stepIdx : PipelineStep → Nat
  | .EXTRACT => 0
  | .AI_INSPECT => 1
  | .AI_FIX => 2
  | .BUILD => 3
  | .VERIFY => 4
  | .INFRA => 5
  | .UPLOAD => 6
  | .NOTIFY => 7

/-- The fixed ordered list `_PIPELINE_STEPS` from `pipeline_orchestrator.py`. -/
def pipelineSteps : List PipelineStep :=
  [.EXTRACT, .AI_INSPECT, .AI_FIX, .BUILD, .VERIFY, .INFRA, .UPLOAD, .NOTIFY]

/-- Step statuses (`StepStatus` in `enums.py`). -/
inductive StepStatus
  | pending
  | running
  | completed
  | failed
  | skipped
  deriving DecidableEq, Repr

/-- Deployment statuses (`DeploymentStatus` in `enums.py`). -/
inductive DeploymentStatus
  | queued
  | running
  | success
  | failed
  deriving DecidableEq, Repr

/-! ### Persisted deployment record, as the orchestrator sees it

The fields mirror the Firestore document written through `db/crud.py`:
`status`, the per-step status map `steps_status`, `current_step`,
`error_message`, `result_url`, and the `started_at` / `completed_at`
timestamps (abstracted to flags: the orchestrator claims only say whether
they were stamped). -/

structure DbRecord where
  status : DeploymentStatus
  stepsStatus : PipelineStep → StepStatus
  currentStep : Option PipelineStep
  errorMessage : Option String
  resultUrl : Option String
  startedAt : Bool
  completedAt : Bool

/-- The record as `crud.create_deployment` writes it: status queued, every
step pending, nothing else set. -/
def DbRecord.queued : DbRecord :=
  { status := .queued
    stepsStatus := fun _ => .pending
    currentStep := none
    errorMessage := none
    resultUrl := none
    startedAt := false
    completedAt := false }

/-- Embedding of `crud.update_step_status`: overwrite one entry of the
per-step status map. -/
def updateStepStatus (db : DbRecord) (s : PipelineStep) (v : StepStatus) : DbRecord :=
  { db with stepsStatus := fun t => if t = s then v else db.stepsStatus t }

/-! ### Pipeline orchestrator (`PipelineOrchestrator._run_pipeline`)

Step handlers are modelled as an oracle `handlers : PipelineStep → Except
String Unit`: `.ok ()` when the handler returns, `.error e` when it raises
with message `e`.  The NOTIFY handler `_step_notify` is modelled separately
(`stepNotify`), because it catches the email service's own exceptions.  The
trace of handler invocations is recorded so that "a handler executed" is a
statement about the run, not about the database. -/

/-- One handler invocation: either a work step's handler, or `_step_notify`
with the `failed_step` / `failure_error` arguments it received. -/
inductive HandlerCall
  | work (s : PipelineStep)
  | notify (failedStep : Option PipelineStep) (failureError : Option String)
  deriving DecidableEq, Repr

/-- Recognizer for NOTIFY invocations in a trace. -/
def isNotifyCall : HandlerCall → Bool
  | .notify _ _ => true
  | .work _ => false

/-- The orchestrator loop's mutable state: the persisted record, the
`failed_step` / `failure_error` locals, and the trace of handler calls. -/
structure RunState where
  db : DbRecord
  failedStep : Option PipelineStep
  failureError : Option String
  calls : List HandlerCall

/-- Embedding of `PipelineOrchestrator._step_notify`.  `emailSend` is the
outcome of `EmailService.send_notification`, given the success flag it is
called with.  If no recipients are configured the step returns early;
otherwise any exception from the email service is caught and logged, so the
step itself never raises. -/
def stepNotify (emailSend : Bool → Except String Unit) (recipients : List String)
    (failedStep : Option PipelineStep) : Except String Unit :=
  if recipients.isEmpty then Except.ok ()
  else
    match emailSend failedStep.isNone with
    | .ok _ => Except.ok ()
    | .error _ => Except.ok ()

/-- Embedding of `_execute_step` for a work step, together with the
surrounding `try/except` of the loop body in `_run_pipeline`: mark the step
running and current, invoke the handler; on success mark it completed, on
failure mark it failed, record `failed_step` / `failure_error` and persist
the error message. -/
def execWorkStep (handlers : PipelineStep → Except String Unit) (st : RunState)
    (s : PipelineStep) : RunState :=
  let db1 : DbRecord := { updateStepStatus st.db s .running with currentStep := some s }
  match handlers s with
  | .ok _ =>
      { st with
          db := updateStepStatus db1 s .completed
          calls := st.calls ++ [.work s] }
  | .error e =>
      { st with
          db := { updateStepStatus db1 s .failed with errorMessage := some e }
          failedStep := some s
          failureError := some e
          calls := st.calls ++ [.work s] }

/-- Embedding of `_execute_step` for the NOTIFY step.  The second component
is the exception that would escape the (uncaught) NOTIFY call in the loop:
`some e` aborts the loop into the orchestrator's outer `except` clause. -/
def execNotifyStep (emailSend : Bool → Except String Unit) (recipients : List String)
    (st : RunState) : RunState × Option String :=
  let db1 : DbRecord := { updateStepStatus st.db .NOTIFY .running with currentStep := some .NOTIFY }
  let st1 : RunState :=
    { st with db := db1, calls := st.calls ++ [.notify st.failedStep st.failureError] }
  match stepNotify emailSend recipients st.failedStep with
  | .ok _ => ({ st1 with db := updateStepStatus st1.db .NOTIFY .completed }, none)
  | .error e => (st1, some e)

/-- The `for step in _PIPELINE_STEPS` loop of `_run_pipeline`: NOTIFY always
executes; after a failure every other step is marked skipped without its
handler being invoked. -/
def runSteps (handlers : PipelineStep → Except String Unit)
    (emailSend : Bool → Except String Unit) (recipients : List String) :
    RunState → List PipelineStep → RunState × Option String
  | st, [] => (st, none)
  | st, s :: rest =>
    if s = .NOTIFY then
      match execNotifyStep emailSend recipients st with
      | (st1, none) => runSteps handlers emailSend recipients st1 rest
      | (st1, some e) => (st1, some e)
    else if st.failedStep.isSome then
      runSteps handlers emailSend recipients
        { st with db := updateStepStatus st.db s .skipped } rest
    else
      runSteps handlers emailSend recipients (execWorkStep handlers st s) rest

/-- Embedding of `_run_pipeline`: mark the deployment running, iterate the
steps, then persist the terminal status — failed with a completion timestamp
when some step failed, success with the result URL otherwise.  An exception
escaping the loop (only possible from the NOTIFY dispatch, which the loop
does not guard) lands in the outer `except` clause, which overwrites status
and error message.  `ctxResultUrl` is `ctx.result_url` as left by the INFRA
handler. -/
def runPipeline (handlers : PipelineStep → Except String Unit)
    (emailSend : Bool → Except String Unit) (recipients : List String)
    (ctxResultUrl : Option String) : RunState :=
  let db0 : DbRecord := { DbRecord.queued with status := .running, startedAt := true }
  let st0 : RunState := ⟨db0, none, none, []⟩
  match runSteps handlers emailSend recipients st0 pipelineSteps with
  | (st, some e) =>
      { st with db := { st.db with status := .failed, errorMessage := some e, completedAt := true } }
  | (st, none) =>
      match st.failedStep with
      | some _ =>
          { st with db := { st.db with status := .failed, completedAt := true } }
      | none =>
          { st with db := { st.db with status := .success, resultUrl := ctxResultUrl, completedAt := true } }

/-! ### Global pipeline deadline (`PipelineOrchestrator.run`)

`run` wraps `_run_pipeline` in `asyncio.wait_for(..., timeout)`.  The
embedding threads time explicitly: `pipelineDuration` is how long
`_run_pipeline` would take (`none` for a handler that never returns), and
`asyncio.wait_for` cancels the awaited task once `timeout` seconds have
elapsed — the documented semantics of the library call.  `handlerDelay` is
the (small) time the `except asyncio.TimeoutError` clause itself takes to
write the forced-failure record. -/

/-- Error message written by the timeout clause of `PipelineOrchestrator.run`. -/
def timeoutMessage (timeout : Nat) : String :=
  "Pipeline timed out after " ++ toString timeout ++
    "s. The build may be too large or a step hung."

/-- The record written by the `except asyncio.TimeoutError` clause: status
failed, timeout error message, completion timestamp — applied on top of
whatever `_run_pipeline` had persisted before being abandoned. -/
def forcedTimeoutRecord (timeout : Nat) (partialDb : DbRecord) : DbRecord :=
  { partialDb with
      status := .failed
      errorMessage := some (timeoutMessage timeout)
      completedAt := true }

/-- Embedding of `PipelineOrchestrator.run`.  Returns the final persisted
record and the elapsed wall-clock seconds at which it was written. -/
def orchestratorRun (timeout : Nat) (pipelineDuration : Option Nat)
    (pipelineResult partialDb : DbRecord) (handlerDelay : Nat) : DbRecord × Nat :=
  match pipelineDuration with
  | some d =>
      if d ≤ timeout then (pipelineResult, d)
      else (forcedTimeoutRecord timeout partialDb, timeout + handlerDelay)
  | none => (forcedTimeoutRecord timeout partialDb, timeout + handlerDelay)

/-! ### Crash recovery and the stale-deployment watchdog (`backend/main.py`)

These operate on raw persisted documents, whose `status` and step statuses
are the plain strings stored in Firestore; `steps_status` is the parsed JSON
object, modelled as an association list.  Timestamps are seconds. -/

structure StoredDeployment where
  status : String
  stepsStatus : List (String × String)
  currentStep : Option String
  errorMessage : Option String
  startedAt : Option Int
  completedAt : Option Int
  deriving DecidableEq, Repr

/-- The step-map rewrite shared by `_recover_stale_deployments` and
`_stale_deployment_watchdog`: running becomes failed, pending becomes
skipped, everything else is untouched. -/
def forceFailSteps (steps : List (String × String)) : List (String × String) :=
  steps.map (fun p =>
    if p.2 = "running" then (p.1, "failed")
    else if p.2 = "pending" then (p.1, "skipped")
    else p)

/-- Error message written by `_recover_stale_deployments`. -/
def restartMessage (currentStep : String) : String :=
  "Deployment was interrupted (container restart/OOM) during step " ++
    currentStep ++ ". Please retry."

/-- Error message written by the watchdog when a running deployment overruns
the ceiling. -/
def watchdogMessage (elapsed : Int) (currentStep : String) : String :=
  "Pipeline timed out after " ++ toString elapsed ++ "s at step " ++
    currentStep ++ ". Please retry."

/-- The document update both recovery paths apply: force status failed,
rewrite the step map, set the explanatory message, stamp `completed_at`. -/
def forceFailDeployment (message : String) (now : Int) (d : StoredDeployment) :
    StoredDeployment :=
  { d with
      status := "failed"
      stepsStatus := forceFailSteps d.stepsStatus
      errorMessage := some message
      completedAt := some now }

/-- Embedding of `_recover_stale_deployments`: every document whose status is
"running" or "queued" is force-failed with the restart message.  (The source
runs one query per stale status; since no document matches both, acting on
each document once is the same transformation.) -/
def recoverStaleDeployments (now : Int) (ds : List StoredDeployment) :
    List StoredDeployment :=
  ds.map (fun d =>
    if d.status = "running" ∨ d.status = "queued" then
      forceFailDeployment (restartMessage (d.currentStep.getD "UNKNOWN")) now d
    else d)

/-- Embedding of one cycle of `_stale_deployment_watchdog`: every document
with status "running", a recorded start time, and elapsed time strictly
above `maxAge` is force-failed with the timed-out message.  Documents with
no `started_at` are skipped, as in the source. -/
def watchdogCycle (now maxAge : Int) (ds : List StoredDeployment) :
    List StoredDeployment :=
  ds.map (fun d =>
    if d.status = "running" then
      match d.startedAt with
      | none => d
      | some t =>
          if maxAge < now - t then
            forceFailDeployment
              (watchdogMessage (now - t) (d.currentStep.getD "UNKNOWN")) now d
          else d
    else d)

/-! ### Operation poller (`gcp_helpers.wait_for_global_operation`)

The control plane is modelled as `polls : ℚ → OpPoll`: the response the
`globalOperations().get` call would return at a given elapsed time.  The
poller starts at elapsed time 0 with a 2-second interval, multiplies the
interval by 1.3 after each sleep, capped at 10 seconds, and checks the
deadline after each poll.  The source manipulates Python floats; the
embedding uses exact rationals with the same constants. -/

/-- One polled operation resource: whether `status == "DONE"`, and the joined
error messages when the terminal resource carries an `error` block. -/
structure OpPoll where
  done : Bool
  errorMsg : Option String
  deriving DecidableEq, Repr

/-- Outcome of `wait_for_global_operation`: normal return, the
`RuntimeError` raised for a terminal operation reporting errors (carrying
the joined remote error detail), or the `TimeoutError`. -/
inductive WaitOutcome
  | completed
  | failed (msg : String)
  | timedOut
  deriving DecidableEq, Repr

/-- The poll-interval sequence: 2 s initially, then multiplied by 1.3 after
each sleep, capped at 10 s. -/
def intervalSeq : Nat → ℚ
  | 0 => 2
  | n + 1 => min (intervalSeq n * (13 / 10)) 10

/-- Elapsed time at which the n-th poll is issued. -/
def pollTime : Nat → ℚ
  | 0 => 0
  | n + 1 => pollTime n + intervalSeq n

/-- The loop of `wait_for_global_operation`, with the clock and current
interval explicit.  The invariant `2 ≤ interval` (true of every interval the
source ever uses) drives termination: each sleep advances the clock by at
least 2 seconds toward the deadline. -/
def waitLoop (polls : ℚ → OpPoll) (deadline clock interval : ℚ)
    (h2 : 2 ≤ interval) : WaitOutcome × List ℚ :=
  if (polls clock).done then
    match (polls clock).errorMsg with
    | some m => (WaitOutcome.failed m, [clock])
    | none => (WaitOutcome.completed, [clock])
  else if deadline ≤ clock then
    (WaitOutcome.timedOut, [clock])
  else
    have h2' : 2 ≤ min (interval * (13 / 10)) 10 := by
      rw [le_min_iff]
      refine ⟨by nlinarith, by norm_num⟩
    let next := waitLoop polls deadline (clock + interval) (min (interval * (13 / 10)) 10) h2'
    (next.1, clock :: next.2)
  termination_by (Int.ceil (deadline - clock)).toNat
  decreasing_by
    rename_i _ hlate
    have hc : clock < deadline := lt_of_not_le hlate
    have hpos : 0 < Int.ceil (deadline - clock) := Int.ceil_pos.mpr (sub_pos.mpr hc)
    have hmono : Int.ceil (deadline - (clock + interval)) ≤ Int.ceil (deadline - clock - 2) :=
      Int.ceil_le_ceil (by linarith)
    have heq : Int.ceil (deadline - clock - (2 : ℚ)) = Int.ceil (deadline - clock) - 2 := by
      have h := Int.ceil_sub_int (deadline - clock) (2 : ℤ)
      push_cast at h
      exact h
    omega

/-- Embedding of `wait_for_global_operation`: poll from elapsed time 0 with
initial interval 2, deadline `timeout` seconds ahead.  Returns the outcome
and the times of every poll issued. -/
def waitForGlobalOperation (polls : ℚ → OpPoll) (timeout : ℚ) :
    WaitOutcome × List ℚ :=
  waitLoop polls timeout 0 2 (le_refl 2)

/-! ### Demo deployer provisioning (`infra/demo_deployer.py`)

Storage buckets and backend buckets are identified by name; the world state
lists those that exist.  Each `ensure` returns the new world together with
the list of mutating control-plane calls it issued — the claims under test
count those. -/

structure GcsEnv where
  storageBuckets : List String
  backendBuckets : List String
  deriving DecidableEq, Repr

/-- Embedding of `DemoDeployer._ensure_storage_bucket`: if the bucket exists
the call returns at once; otherwise it creates and configures the bucket
(`bucket.create`, the website-config `bucket.patch`, `bucket.set_iam_policy`
are the mutating calls). -/
def ensureStorageBucket (env : GcsEnv) (bucketName : String) : GcsEnv × List String :=
  if env.storageBuckets.contains bucketName then (env, [])
  else
    ({ env with storageBuckets := env.storageBuckets ++ [bucketName] },
      ["storage.buckets.create", "storage.buckets.patch", "storage.buckets.setIamPolicy"])

/-- Embedding of `DemoDeployer._ensure_backend_bucket`: if the
`backendBuckets().get` probe finds the resource the call returns at once;
otherwise a single `backendBuckets().insert` is issued. -/
def ensureBackendBucket (env : GcsEnv) (backendBucketName : String) :
    GcsEnv × List String :=
  if env.backendBuckets.contains backendBucketName then (env, [])
  else
    ({ env with backendBuckets := env.backendBuckets ++ [backendBucketName] },
      ["compute.backendBuckets.insert"])

/-! URL-map model, following the compute `UrlMap` resource fields the demo
deployer reads and writes. -/

structure PathRule where
  paths : List String
  service : String
  deriving DecidableEq, Repr

structure PathMatcher where
  name : String
  pathRules : List PathRule
  deriving DecidableEq, Repr

structure HostRule where
  hosts : List String
  pathMatcher : String
  deriving DecidableEq, Repr

structure UrlMap where
  hostRules : List HostRule
  pathMatchers : List PathMatcher
  deriving DecidableEq, Repr

/-- The two desired paths for a website: `/{name}` and `/{name}/*`. -/
def desiredPaths (websiteName : String) : List String :=
  ["/" ++ websiteName, "/" ++ websiteName ++ "/*"]

/-- Replace the first element satisfying `p` by its image under `f`, leaving
the rest of the list untouched — the effect of mutating, in place, the one
path matcher the source located by name. -/
def updateFirst {α : Type} (p : α → Bool) (f : α → α) : List α → List α
  | [] => []
  | x :: xs => if p x then f x :: xs else x :: updateFirst p f xs

/-- Embedding of `DemoDeployer._ensure_url_map_path_rule`.  The URL map is
fetched, the backend bucket's self-link having been resolved by a read-only
`get` (passed in as `bbSelfLink`).  The path matcher serving the demo domain
is located through the host rules; if both desired paths are already present
among the matcher's rules the call returns with no patch; otherwise rules
that partially cover the desired paths are removed, the complete rule is
appended, and one `urlMaps().patch` is issued. -/
def ensureUrlMapPathRule (demoDomain websiteName bbSelfLink : String) (m : UrlMap) :
    Except String (UrlMap × List String) :=
  match m.hostRules.find? (fun h => h.hosts.contains demoDomain) with
  | none => Except.error ("No host rule for '" ++ demoDomain ++ "' found in URL map.")
  | some hrule =>
    match m.pathMatchers.find? (fun pm => pm.name == hrule.pathMatcher) with
    | none =>
        Except.error ("Path matcher '" ++ hrule.pathMatcher ++
          "' referenced by host rule but not found in URL map.")
    | some tm =>
      let desired := desiredPaths websiteName
      let existingPaths := (tm.pathRules.map PathRule.paths).flatten
      if desired.all (fun p => existingPaths.contains p) then
        Except.ok (m, [])
      else
        let cleaned := tm.pathRules.filter
          (fun rule => ! desired.any (fun p => rule.paths.contains p))
        let newRules := cleaned ++ [{ paths := desired, service := bbSelfLink }]
        Except.ok
          ({ m with
              pathMatchers :=
                updateFirst (fun pm => pm.name == hrule.pathMatcher)
                  (fun pm => { pm with pathRules := newRules }) m.pathMatchers },
            ["compute.urlMaps.patch"])

/-! ### Demo teardown (`DemoDeployer.delete`) and the deletion route
(`api/routes/deployments.py`) -/

/-- Response of the control plane to one delete call. -/
inductive DeleteResp
  | ok
  | notFound
  | err (msg : String)
  deriving DecidableEq, Repr

/-- Embedding of `DemoDeployer._delete_backend_bucket`: a 404 from
`backendBuckets().delete` is treated as already deleted; any other HTTP
error re-raises. -/
def deleteBackendBucket (resp : DeleteResp) : Except String Unit :=
  match resp with
  | .ok => Except.ok ()
  | .notFound => Except.ok ()
  | .err m => Except.error m

/-- Embedding of `DemoDeployer._delete_storage_bucket`: an exception whose
text marks the bucket as not found is treated as already deleted; any other
exception re-raises. -/
def deleteStorageBucket (resp : DeleteResp) : Except String Unit :=
  match resp with
  | .ok => Except.ok ()
  | .notFound => Except.ok ()
  | .err m => Except.error m

/-- Embedding of `DemoDeployer.delete`'s control flow: the three sub-steps
run strictly in order — path rule removal, backend bucket, storage bucket —
and nothing in `delete` catches their exceptions.  The inputs are the
outcomes the control plane gives each sub-step; the result is the list of
sub-steps that were actually attempted and the exception, if one escaped. -/
structure DemoDeleteResponses where
  ruleRemoval : Except String Unit
  backendDelete : DeleteResp
  storageDelete : DeleteResp
  deriving Repr

def demoDelete (w : DemoDeleteResponses) : List String × Option String :=
  match w.ruleRemoval with
  | .error e => (["removeUrlMapPathRule"], some e)
  | .ok _ =>
    match deleteBackendBucket w.backendDelete with
    | .error e => (["removeUrlMapPathRule", "deleteBackendBucket"], some e)
    | .ok _ =>
      match deleteStorageBucket w.storageDelete with
      | .error e =>
          (["removeUrlMapPathRule", "deleteBackendBucket", "deleteStorageBucket"], some e)
      | .ok _ =>
          (["removeUrlMapPathRule", "deleteBackendBucket", "deleteStorageBucket"], none)

/-- Deployment target modes (`DeploymentMode` in `enums.py`). -/
inductive DeploymentMode
  | demo
  | prod
  | cloudrun
  deriving DecidableEq, Repr

/-- What the `DELETE /api/deployments/{id}` route did: the ordered events it
performed and the warnings it collected. -/
structure RouteDeleteOutcome where
  events : List String
  warnings : List String
  deriving DecidableEq, Repr

/-- Embedding of the `delete_deployment` route handler: 404 when the record
does not exist; for demo and cloudrun the provisioner's teardown runs first
and its failure is caught into a warning; for prod no provisioner cleanup is
attempted ("prod resources require manual cleanup"); the DB record is always
deleted afterwards. -/
def deleteDeploymentRoute (recordExists : Bool) (mode : DeploymentMode)
    (teardown : Except String Unit) : Except String RouteDeleteOutcome :=
  if !recordExists then Except.error "404: Deployment not found"
  else
    match mode with
    | .demo =>
      match teardown with
      | .ok _ =>
          Except.ok { events := ["provisionerTeardown", "deleteRecord"], warnings := [] }
      | .error e =>
          Except.ok
            { events := ["provisionerTeardown", "deleteRecord"]
              warnings := ["Demo cleanup error: " ++ e] }
    | .cloudrun =>
      match teardown with
      | .ok _ =>
          Except.ok { events := ["provisionerTeardown", "deleteRecord"], warnings := [] }
      | .error e =>
          Except.ok
            { events := ["provisionerTeardown", "deleteRecord"]
              warnings := ["Cloud Run cleanup error: " ++ e] }
    | .prod =>
        Except.ok { events := ["deleteRecord"], warnings := [] }

/-- The events a route outcome performed (empty on an HTTP error). -/
def routeEvents (r : Except String RouteDeleteOutcome) : List String :=
  match r with
  | .ok o => o.events
  | .error _ => []

/-- Which entry points each deployer class defines.  `DemoDeployer` and
`CloudRunDeployer` define both `deploy` and `delete`; `ProdDeployer` defines
only `deploy`. -/
structure ProvisionerSurface where
  hasDeploy : Bool
  hasDelete : Bool
  deriving DecidableEq, Repr

def demoDeployerSurface : ProvisionerSurface := { hasDeploy := true, hasDelete := true }

def cloudrunDeployerSurface : ProvisionerSurface := { hasDeploy := true, hasDelete := true }

def prodDeployerSurface : ProvisionerSurface := { hasDeploy := true, hasDelete := false }

/-! ### Log broadcast (`api/dependencies.py`)

One listener queue is an `asyncio.Queue`: `maxsize = 0` means unbounded (the
asyncio convention, and what `subscribe_logs` actually constructs).
`put_nowait` raises `QueueFull` — which `_broadcast_sync` swallows, dropping
the message — exactly when the queue is bounded and already holds `maxsize`
items. -/

structure LogQueue where
  maxsize : Nat
  items : List String
  deriving DecidableEq, Repr

/-- `q.put_nowait(message)` as `_broadcast_sync` uses it: append unless the
queue is bounded and full, in which case the message is dropped for this
queue. -/
def putNowait (q : LogQueue) (msg : String) : LogQueue :=
  if 0 < q.maxsize ∧ q.maxsize ≤ q.items.length then q
  else { q with items := q.items ++ [msg] }

/-- The queue `subscribe_logs` registers for a new listener:
`asyncio.Queue()` with the default `maxsize = 0`, i.e. unbounded. -/
def subscribeLogsQueue : LogQueue := { maxsize := 0, items := [] }

/-- Embedding of `_broadcast_sync`: push the message to every current
listener's queue, dropping it for any full one. -/
def broadcastSync (qs : List LogQueue) (msg : String) : List LogQueue :=
  qs.map (fun q => putNowait q msg)

/-- Publish a sequence of messages, in order, to the listener set. -/
def publishAll (qs : List LogQueue) (msgs : List String) : List LogQueue :=
  msgs.foldl broadcastSync qs

/-- Deliver a sequence of messages to a single queue. -/
def putAll (q : LogQueue) (msgs : List String) : LogQueue :=
  msgs.foldl putNowait q

/-- The last `n` entries of a message list — what "the most recent messages
up to capacity" denotes. -/
def lastN (n : Nat) (msgs : List String) : List String :=
  msgs.drop (msgs.length - n)

/-! ## Helper lemmas about the orchestrator loop -/

/-- The NOTIFY step handler never raises: an empty recipient list returns
early, and an email-service failure is caught and logged. -/
theorem stepNotify_eq_ok (emailSend : Bool → Except String Unit)
    (recipients : List String) (failedStep : Option PipelineStep) :
    stepNotify emailSend recipients failedStep = Except.ok () := by
  unfold stepNotify
  split
  · rfl
  · split <;> rfl

/-- Characterization of a run in which every work-step handler succeeds. -/
theorem runPipeline_all_ok (handlers : PipelineStep → Except String Unit)
    (emailSend : Bool → Except String Unit) (recipients : List String)
    (url : Option String)
    (h : ∀ s, s ≠ PipelineStep.NOTIFY → handlers s = Except.ok ()) :
    (runPipeline handlers emailSend recipients url).db.status = DeploymentStatus.success ∧
    (runPipeline handlers emailSend recipients url).db.errorMessage = none ∧
    (runPipeline handlers emailSend recipients url).db.completedAt = true ∧
    (runPipeline handlers emailSend recipients url).db.resultUrl = url ∧
    (∀ s, (runPipeline handlers emailSend recipients url).db.stepsStatus s =
      StepStatus.completed) ∧
    (runPipeline handlers emailSend recipients url).calls.filter isNotifyCall =
      [HandlerCall.notify none none] := by
  have hE := h .EXTRACT (by decide)
  have hA := h .AI_INSPECT (by decide)
  have hF := h .AI_FIX (by decide)
  have hB := h .BUILD (by decide)
  have hV := h .VERIFY (by decide)
  have hI := h .INFRA (by decide)
  have hU := h .UPLOAD (by decide)
  refine ⟨?_, ?_, ?_, ?_, fun s => ?_, ?_⟩ <;>
  first
  | (cases s <;>
      simp [runPipeline, runSteps, pipelineSteps, execWorkStep, execNotifyStep,
        stepNotify_eq_ok, updateStepStatus, DbRecord.queued, isNotifyCall,
        hE, hA, hF, hB, hV, hI, hU])
  | simp [runPipeline, runSteps, pipelineSteps, execWorkStep, execNotifyStep,
      stepNotify_eq_ok, updateStepStatus, DbRecord.queued, isNotifyCall,
      hE, hA, hF, hB, hV, hI, hU]

/-- Characterization of a run whose first (and only) handler failure is the
work step `k`, raising with message `e`. -/
theorem runPipeline_first_failure (handlers : PipelineStep → Except String Unit)
    (emailSend : Bool → Except String Unit) (recipients : List String)
    (url : Option String) (k : PipelineStep) (e : String)
    (hk : k ≠ PipelineStep.NOTIFY)
    (hfail : handlers k = Except.error e)
    (hpre : ∀ j, stepIdx j < stepIdx k → handlers j = Except.ok ()) :
    (runPipeline handlers emailSend recipients url).db.status = DeploymentStatus.failed ∧
    (runPipeline handlers emailSend recipients url).db.errorMessage = some e ∧
    (runPipeline handlers emailSend recipients url).db.completedAt = true ∧
    (runPipeline handlers emailSend recipients url).db.stepsStatus k = StepStatus.failed ∧
    (∀ j, j ≠ PipelineStep.NOTIFY → stepIdx k < stepIdx j →
      (runPipeline handlers emailSend recipients url).db.stepsStatus j = StepStatus.skipped ∧
      HandlerCall.work j ∉ (runPipeline handlers emailSend recipients url).calls) ∧
    (runPipeline handlers emailSend recipients url).calls.filter isNotifyCall =
      [HandlerCall.notify (some k) (some e)] := by
  cases k
  case NOTIFY => exact absurd rfl hk
  case EXTRACT =>
    refine ⟨?_, ?_, ?_, ?_, fun j hj hlt => ?_, ?_⟩
    · simp [runPipeline, runSteps, pipelineSteps, execWorkStep, execNotifyStep,
        stepNotify_eq_ok, updateStepStatus, DbRecord.queued, isNotifyCall, hfail]
    · simp [runPipeline, runSteps, pipelineSteps, execWorkStep, execNotifyStep,
        stepNotify_eq_ok, updateStepStatus, DbRecord.queued, isNotifyCall, hfail]
    · simp [runPipeline, runSteps, pipelineSteps, execWorkStep, execNotifyStep,
        stepNotify_eq_ok, updateStepStatus, DbRecord.queued, isNotifyCall, hfail]
    · simp [runPipeline, runSteps, pipelineSteps, execWorkStep, execNotifyStep,
        stepNotify_eq_ok, updateStepStatus, DbRecord.queued, isNotifyCall, hfail]
    · cases j <;>
        first
        | exact absurd rfl hj
        | exact absurd hlt (by decide)
        | simp [runPipeline, runSteps, pipelineSteps, execWorkStep, execNotifyStep,
            stepNotify_eq_ok, updateStepStatus, DbRecord.queued, isNotifyCall, hfail]
    · simp [runPipeline, runSteps, pipelineSteps, execWorkStep, execNotifyStep,
        stepNotify_eq_ok, updateStepStatus, DbRecord.queued, isNotifyCall, hfail]
  case AI_INSPECT =>
    have h0 := hpre .EXTRACT (by decide)
    refine ⟨?_, ?_, ?_, ?_, fun j hj hlt => ?_, ?_⟩
    · simp [runPipeline, runSteps, pipelineSteps, execWorkStep, execNotifyStep,
        stepNotify_eq_ok, updateStepStatus, DbRecord.queued, isNotifyCall, h0, hfail]
    · simp [runPipeline, runSteps, pipelineSteps, execWorkStep, execNotifyStep,
        stepNotify_eq_ok, updateStepStatus, DbRecord.queued, isNotifyCall, h0, hfail]
    · simp [runPipeline, runSteps, pipelineSteps, execWorkStep, execNotifyStep,
        stepNotify_eq_ok, updateStepStatus, DbRecord.queued, isNotifyCall, h0, hfail]
    · simp [runPipeline, runSteps, pipelineSteps, execWorkStep, execNotifyStep,
        stepNotify_eq_ok, updateStepStatus, DbRecord.queued, isNotifyCall, h0, hfail]
    · cases j <;>
        first
        | exact absurd rfl hj
        | exact absurd hlt (by decide)
        | simp [runPipeline, runSteps, pipelineSteps, execWorkStep, execNotifyStep,
            stepNotify_eq_ok, updateStepStatus, DbRecord.queued, isNotifyCall, h0, hfail]
    · simp [runPipeline, runSteps, pipelineSteps, execWorkStep, execNotifyStep,
        stepNotify_eq_ok, updateStepStatus, DbRecord.queued, isNotifyCall, h0, hfail]
  case AI_FIX =>
    have h0 := hpre .EXTRACT (by decide)
    have h1 := hpre .AI_INSPECT (by decide)
    refine ⟨?_, ?_, ?_, ?_, fun j hj hlt => ?_, ?_⟩
    · simp [runPipeline, runSteps, pipelineSteps, execWorkStep, execNotifyStep,
        stepNotify_eq_ok, updateStepStatus, DbRecord.queued, isNotifyCall, h0, h1, hfail]
    · simp [runPipeline, runSteps, pipelineSteps, execWorkStep, execNotifyStep,
        stepNotify_eq_ok, updateStepStatus, DbRecord.queued, isNotifyCall, h0, h1, hfail]
    · simp [runPipeline, runSteps, pipelineSteps, execWorkStep, execNotifyStep,
        stepNotify_eq_ok, updateStepStatus, DbRecord.queued, isNotifyCall, h0, h1, hfail]
    · simp [runPipeline, runSteps, pipelineSteps, execWorkStep, execNotifyStep,
        stepNotify_eq_ok, updateStepStatus, DbRecord.queued, isNotifyCall, h0, h1, hfail]
    · cases j <;>
        first
        | exact absurd rfl hj
        | exact absurd hlt (by decide)
        | simp [runPipeline, runSteps, pipelineSteps, execWorkStep, execNotifyStep,
            stepNotify_eq_ok, updateStepStatus, DbRecord.queued, isNotifyCall, h0, h1, hfail]
    · simp [runPipeline, runSteps, pipelineSteps, execWorkStep, execNotifyStep,
        stepNotify_eq_ok, updateStepStatus, DbRecord.queued, isNotifyCall, h0, h1, hfail]
  case BUILD =>
    have h0 := hpre .EXTRACT (by decide)
    have h1 := hpre .AI_INSPECT (by decide)
    have h2 := hpre .AI_FIX (by decide)
    refine ⟨?_, ?_, ?_, ?_, fun j hj hlt => ?_, ?_⟩
    · simp [runPipeline, runSteps, pipelineSteps, execWorkStep, execNotifyStep,
        stepNotify_eq_ok, updateStepStatus, DbRecord.queued, isNotifyCall, h0, h1, h2, hfail]
    · simp [runPipeline, runSteps, pipelineSteps, execWorkStep, execNotifyStep,
        stepNotify_eq_ok, updateStepStatus, DbRecord.queued, isNotifyCall, h0, h1, h2, hfail]
    · simp [runPipeline, runSteps, pipelineSteps, execWorkStep, execNotifyStep,
        stepNotify_eq_ok, updateStepStatus, DbRecord.queued, isNotifyCall, h0, h1, h2, hfail]
    · simp [runPipeline, runSteps, pipelineSteps, execWorkStep, execNotifyStep,
        stepNotify_eq_ok, updateStepStatus, DbRecord.queued, isNotifyCall, h0, h1, h2, hfail]
    · cases j <;>
        first
        | exact absurd rfl hj
        | exact absurd hlt (by decide)
        | simp [runPipeline, runSteps, pipelineSteps, execWorkStep, execNotifyStep,
            stepNotify_eq_ok, updateStepStatus, DbRecord.queued, isNotifyCall, h0, h1, h2, hfail]
    · simp [runPipeline, runSteps, pipelineSteps, execWorkStep, execNotifyStep,
        stepNotify_eq_ok, updateStepStatus, DbRecord.queued, isNotifyCall, h0, h1, h2, hfail]
  case VERIFY =>
    have h0 := hpre .EXTRACT (by decide)
    have h1 := hpre .AI_INSPECT (by decide)
    have h2 := hpre .AI_FIX (by decide)
    have h3 := hpre .BUILD (by decide)
    refine ⟨?_, ?_, ?_, ?_, fun j hj hlt => ?_, ?_⟩
    · simp [runPipeline, runSteps, pipelineSteps, execWorkStep, execNotifyStep,
        stepNotify_eq_ok, updateStepStatus, DbRecord.queued, isNotifyCall, h0, h1, h2, h3, hfail]
    · simp [runPipeline, runSteps, pipelineSteps, execWorkStep, execNotifyStep,
        stepNotify_eq_ok, updateStepStatus, DbRecord.queued, isNotifyCall, h0, h1, h2, h3, hfail]
    · simp [runPipeline, runSteps, pipelineSteps, execWorkStep, execNotifyStep,
        stepNotify_eq_ok, updateStepStatus, DbRecord.queued, isNotifyCall, h0, h1, h2, h3, hfail]
    · simp [runPipeline, runSteps, pipelineSteps, execWorkStep, execNotifyStep,
        stepNotify_eq_ok, updateStepStatus, DbRecord.queued, isNotifyCall, h0, h1, h2, h3, hfail]
    · cases j <;>
        first
        | exact absurd rfl hj
        | exact absurd hlt (by decide)
        | simp [runPipeline, runSteps, pipelineSteps, execWorkStep, execNotifyStep,
            stepNotify_eq_ok, updateStepStatus, DbRecord.queued, isNotifyCall, h0, h1, h2, h3, hfail]
    · simp [runPipeline, runSteps, pipelineSteps, execWorkStep, execNotifyStep,
        stepNotify_eq_ok, updateStepStatus, DbRecord.queued, isNotifyCall, h0, h1, h2, h3, hfail]
  case INFRA =>
    have h0 := hpre .EXTRACT (by decide)
    have h1 := hpre .AI_INSPECT (by decide)
    have h2 := hpre .AI_FIX (by decide)
    have h3 := hpre .BUILD (by decide)
    have h4 := hpre .VERIFY (by decide)
    refine ⟨?_, ?_, ?_, ?_, fun j hj hlt => ?_, ?_⟩
    · simp [runPipeline, runSteps, pipelineSteps, execWorkStep, execNotifyStep,
        stepNotify_eq_ok, updateStepStatus, DbRecord.queued, isNotifyCall,
        h0, h1, h2, h3, h4, hfail]
    · simp [runPipeline, runSteps, pipelineSteps, execWorkStep, execNotifyStep,
        stepNotify_eq_ok, updateStepStatus, DbRecord.queued, isNotifyCall,
        h0, h1, h2, h3, h4, hfail]
    · simp [runPipeline, runSteps, pipelineSteps, execWorkStep, execNotifyStep,
        stepNotify_eq_ok, updateStepStatus, DbRecord.queued, isNotifyCall,
        h0, h1, h2, h3, h4, hfail]
    · simp [runPipeline, runSteps, pipelineSteps, execWorkStep, execNotifyStep,
        stepNotify_eq_ok, updateStepStatus, DbRecord.queued, isNotifyCall,
        h0, h1, h2, h3, h4, hfail]
    · cases j <;>
        first
        | exact absurd rfl hj
        | exact absurd hlt (by decide)
        | simp [runPipeline, runSteps, pipelineSteps, execWorkStep, execNotifyStep,
            stepNotify_eq_ok, updateStepStatus, DbRecord.queued, isNotifyCall,
            h0, h1, h2, h3, h4, hfail]
    · simp [runPipeline, runSteps, pipelineSteps, execWorkStep, execNotifyStep,
        stepNotify_eq_ok, updateStepStatus, DbRecord.queued, isNotifyCall,
        h0, h1, h2, h3, h4, hfail]
  case UPLOAD =>
    have h0 := hpre .EXTRACT (by decide)
    have h1 := hpre .AI_INSPECT (by decide)
    have h2 := hpre .AI_FIX (by decide)
    have h3 := hpre .BUILD (by decide)
    have h4 := hpre .VERIFY (by decide)
    have h5 := hpre .INFRA (by decide)
    refine ⟨?_, ?_, ?_, ?_, fun j hj hlt => ?_, ?_⟩
    · simp [runPipeline, runSteps, pipelineSteps, execWorkStep, execNotifyStep,
        stepNotify_eq_ok, updateStepStatus, DbRecord.queued, isNotifyCall,
        h0, h1, h2, h3, h4, h5, hfail]
    · simp [runPipeline, runSteps, pipelineSteps, execWorkStep, execNotifyStep,
        stepNotify_eq_ok, updateStepStatus, DbRecord.queued, isNotifyCall,
        h0, h1, h2, h3, h4, h5, hfail]
    · simp [runPipeline, runSteps, pipelineSteps, execWorkStep, execNotifyStep,
        stepNotify_eq_ok, updateStepStatus, DbRecord.queued, isNotifyCall,
        h0, h1, h2, h3, h4, h5, hfail]
    · simp [runPipeline, runSteps, pipelineSteps, execWorkStep, execNotifyStep,
        stepNotify_eq_ok, updateStepStatus, DbRecord.queued, isNotifyCall,
        h0, h1, h2, h3, h4, h5, hfail]
    · cases j <;>
        first
        | exact absurd rfl hj
        | exact absurd hlt (by decide)
    · simp [runPipeline, runSteps, pipelineSteps, execWorkStep, execNotifyStep,
        stepNotify_eq_ok, updateStepStatus, DbRecord.queued, isNotifyCall,
        h0, h1, h2, h3, h4, h5, hfail]

/-! ## Claim C1 -/

/-- C1: for every run in which the handler of a non-Notify step `k` fails
(all earlier work steps having succeeded, so that `k` actually executed),
every later non-Notify step of the fixed order is marked Skipped and its
handler never executes, and the NOTIFY handler is invoked exactly once,
receiving the failed step and its error. -/
theorem claim1_skip_cascade_and_notify_once
    (handlers : PipelineStep → Except String Unit)
    (emailSend : Bool → Except String Unit) (recipients : List String)
    (url : Option String) (k : PipelineStep) (e : String)
    (hk : k ≠ PipelineStep.NOTIFY)
    (hfail : handlers k = Except.error e)
    (hpre : ∀ j, stepIdx j < stepIdx k → handlers j = Except.ok ()) :
    (∀ j, j ≠ PipelineStep.NOTIFY → stepIdx k < stepIdx j →
      (runPipeline handlers emailSend recipients url).db.stepsStatus j = StepStatus.skipped ∧
      HandlerCall.work j ∉ (runPipeline handlers emailSend recipients url).calls) ∧
    (runPipeline handlers emailSend recipients url).calls.filter isNotifyCall =
      [HandlerCall.notify (some k) (some e)] := by
  have h := runPipeline_first_failure handlers emailSend recipients url k e hk hfail hpre
  exact ⟨h.2.2.2.2.1, h.2.2.2.2.2⟩

/-- Witness for C1: a concrete run whose BUILD handler raises; VERIFY is
skipped without its handler executing and NOTIFY runs exactly once with the
failed step and error. -/
theorem claim1_skip_cascade_and_notify_once_witness :
    (runPipeline
        (fun s => if s = PipelineStep.BUILD then Except.error "npm run build failed" else Except.ok ())
        (fun _ => Except.ok ()) ["ops@example.test"] none).db.stepsStatus
        PipelineStep.VERIFY = StepStatus.skipped ∧
    HandlerCall.work PipelineStep.VERIFY ∉
      (runPipeline
        (fun s => if s = PipelineStep.BUILD then Except.error "npm run build failed" else Except.ok ())
        (fun _ => Except.ok ()) ["ops@example.test"] none).calls ∧
    (runPipeline
        (fun s => if s = PipelineStep.BUILD then Except.error "npm run build failed" else Except.ok ())
        (fun _ => Except.ok ()) ["ops@example.test"] none).calls.filter isNotifyCall =
      [HandlerCall.notify (some PipelineStep.BUILD) (some "npm run build failed")] := by
  have h := claim1_skip_cascade_and_notify_once
    (fun s => if s = PipelineStep.BUILD then Except.error "npm run build failed" else Except.ok ())
    (fun _ => Except.ok ()) ["ops@example.test"] none PipelineStep.BUILD
    "npm run build failed" (by decide) (by rfl)
    (fun j hj => by
      cases j <;> first | rfl | exact absurd hj (by decide))
  exact ⟨(h.1 PipelineStep.VERIFY (by decide) (by decide)).1,
    (h.1 PipelineStep.VERIFY (by decide) (by decide)).2, h.2⟩

/-! ## Claim C3 -/

/-- C3: the NOTIFY step never reclassifies the pipeline's own terminal
outcome.  For every email-service behaviour `emailSend` — including one that
always raises — a run whose work steps all succeed ends with persisted
status Success and no error message, and a run whose first failure is step
`k` with error `e` ends Failed with exactly that step and error, NOTIFY
having been invoked once with them. -/
theorem claim3_notify_failure_preserves_outcome
    (handlers : PipelineStep → Except String Unit)
    (emailSend : Bool → Except String Unit) (recipients : List String)
    (url : Option String) :
    ((∀ s, s ≠ PipelineStep.NOTIFY → handlers s = Except.ok ()) →
      (runPipeline handlers emailSend recipients url).db.status = DeploymentStatus.success ∧
      (runPipeline handlers emailSend recipients url).db.errorMessage = none ∧
      (runPipeline handlers emailSend recipients url).db.completedAt = true) ∧
    (∀ k e, k ≠ PipelineStep.NOTIFY → handlers k = Except.error e →
      (∀ j, stepIdx j < stepIdx k → handlers j = Except.ok ()) →
      (runPipeline handlers emailSend recipients url).db.status = DeploymentStatus.failed ∧
      (runPipeline handlers emailSend recipients url).db.errorMessage = some e ∧
      (runPipeline handlers emailSend recipients url).db.stepsStatus k = StepStatus.failed ∧
      (runPipeline handlers emailSend recipients url).calls.filter isNotifyCall =
        [HandlerCall.notify (some k) (some e)]) := by
  constructor
  · intro hok
    have h := runPipeline_all_ok handlers emailSend recipients url hok
    exact ⟨h.1, h.2.1, h.2.2.1⟩
  · intro k e hk hfail hpre
    have h := runPipeline_first_failure handlers emailSend recipients url k e hk hfail hpre
    exact ⟨h.1, h.2.1, h.2.2.2.1, h.2.2.2.2.2⟩

/-- Witness for C3: a fully successful run whose email service raises still
ends with persisted status Success and no error message. -/
theorem claim3_notify_failure_preserves_outcome_witness :
    (runPipeline (fun _ => Except.ok ()) (fun _ => Except.error "SMTP connection refused")
        ["ops@example.test"] (some "https://demo.example.test/my-site/")).db.status =
      DeploymentStatus.success ∧
    (runPipeline (fun _ => Except.ok ()) (fun _ => Except.error "SMTP connection refused")
        ["ops@example.test"] (some "https://demo.example.test/my-site/")).db.errorMessage =
      none := by
  have h := (claim3_notify_failure_preserves_outcome (fun _ => Except.ok ())
    (fun _ => Except.error "SMTP connection refused") ["ops@example.test"]
    (some "https://demo.example.test/my-site/")).1 (fun _ _ => rfl)
  exact ⟨h.1, h.2.1⟩

/-! ## Claim C4 -/

/-- C4: when the pipeline body outruns the configured global deadline —
including a step handler that never returns (`pipelineDuration = none`) —
`PipelineOrchestrator.run` abandons the run and forces the persisted record
to status Failed with the timeout error message and a completion timestamp,
writing it by `timeout + handlerDelay` seconds of wall-clock time. -/
theorem claim4_pipeline_deadline_forces_failed (timeout : Nat)
    (pipelineDuration : Option Nat) (pipelineResult partialDb : DbRecord)
    (handlerDelay : Nat)
    (hover : ∀ d, pipelineDuration = some d → timeout < d) :
    (orchestratorRun timeout pipelineDuration pipelineResult partialDb handlerDelay).1.status =
      DeploymentStatus.failed ∧
    (orchestratorRun timeout pipelineDuration pipelineResult partialDb handlerDelay).1.errorMessage =
      some (timeoutMessage timeout) ∧
    (orchestratorRun timeout pipelineDuration pipelineResult partialDb handlerDelay).1.completedAt =
      true ∧
    (orchestratorRun timeout pipelineDuration pipelineResult partialDb handlerDelay).2 ≤
      timeout + handlerDelay := by
  cases pipelineDuration with
  | none => simp [orchestratorRun, forcedTimeoutRecord]
  | some d =>
      have hd : ¬ d ≤ timeout := Nat.not_le.mpr (hover d rfl)
      simp [orchestratorRun, forcedTimeoutRecord, hd]

/-- Witness for C4: a handler that never returns under a 900-second deadline
yields a Failed record with the timeout message, within 900 + 1 seconds. -/
theorem claim4_pipeline_deadline_forces_failed_witness :
    (orchestratorRun 900 none DbRecord.queued DbRecord.queued 1).1.status =
      DeploymentStatus.failed ∧
    (orchestratorRun 900 none DbRecord.queued DbRecord.queued 1).1.errorMessage =
      some (timeoutMessage 900) ∧
    (orchestratorRun 900 none DbRecord.queued DbRecord.queued 1).2 ≤ 901 := by
  have h := claim4_pipeline_deadline_forces_failed 900 none DbRecord.queued DbRecord.queued 1
    (fun d hd => nomatch hd)
  exact ⟨h.1, h.2.1, h.2.2.2⟩

/-! ## Claim C5 -/

/-- C5: startup recovery force-fails every persisted deployment left in
status "running" or "queued", and a watchdog cycle force-fails every
"running" deployment whose elapsed time since start exceeds the ceiling; in
both cases the written record has status "failed", every step recorded
"running" rewritten to "failed", every step recorded "pending" rewritten to
"skipped" (all other step entries untouched), an explanatory error message,
and a stamped completion timestamp. -/
theorem claim5_stale_recovery_and_watchdog (now maxAge : Int)
    (ds : List StoredDeployment) (d : StoredDeployment) (hd : d ∈ ds) :
    ((d.status = "running" ∨ d.status = "queued") →
      forceFailDeployment (restartMessage (d.currentStep.getD "UNKNOWN")) now d ∈
        recoverStaleDeployments now ds) ∧
    (∀ t, d.status = "running" → d.startedAt = some t → maxAge < now - t →
      forceFailDeployment (watchdogMessage (now - t) (d.currentStep.getD "UNKNOWN")) now d ∈
        watchdogCycle now maxAge ds) ∧
    (∀ msg,
      (forceFailDeployment msg now d).status = "failed" ∧
      (forceFailDeployment msg now d).errorMessage = some msg ∧
      (forceFailDeployment msg now d).completedAt = some now ∧
      (∀ kv ∈ d.stepsStatus, kv.2 = "running" →
        (kv.1, "failed") ∈ (forceFailDeployment msg now d).stepsStatus) ∧
      (∀ kv ∈ d.stepsStatus, kv.2 = "pending" →
        (kv.1, "skipped") ∈ (forceFailDeployment msg now d).stepsStatus) ∧
      (∀ kv ∈ d.stepsStatus, kv.2 ≠ "running" → kv.2 ≠ "pending" →
        kv ∈ (forceFailDeployment msg now d).stepsStatus)) := by
  refine ⟨?_, ?_, ?_⟩
  · intro hst
    have h := List.mem_map_of_mem
      (fun x : StoredDeployment =>
        if x.status = "running" ∨ x.status = "queued" then
          forceFailDeployment (restartMessage (x.currentStep.getD "UNKNOWN")) now x
        else x) hd
    simp only [] at h
    rw [if_pos hst] at h
    exact h
  · intro t hst hstart hel
    have h := List.mem_map_of_mem
      (fun x : StoredDeployment =>
        if x.status = "running" then
          match x.startedAt with
          | none => x
          | some t0 =>
              if maxAge < now - t0 then
                forceFailDeployment
                  (watchdogMessage (now - t0) (x.currentStep.getD "UNKNOWN")) now x
              else x
        else x) hd
    simp only [] at h
    rw [if_pos hst, hstart] at h
    simp only [if_pos hel] at h
    exact h
  · intro msg
    refine ⟨rfl, rfl, rfl, ?_, ?_, ?_⟩
    · intro kv hkv hrun
      have h := List.mem_map_of_mem
        (fun p : String × String =>
          if p.2 = "running" then (p.1, "failed")
          else if p.2 = "pending" then (p.1, "skipped")
          else p) hkv
      simp only [] at h
      rw [if_pos hrun] at h
      exact h
    · intro kv hkv hpend
      have h := List.mem_map_of_mem
        (fun p : String × String =>
          if p.2 = "running" then (p.1, "failed")
          else if p.2 = "pending" then (p.1, "skipped")
          else p) hkv
      simp only [] at h
      rw [if_neg (by simp [hpend]), if_pos hpend] at h
      exact h
    · intro kv hkv h1 h2
      have h := List.mem_map_of_mem
        (fun p : String × String =>
          if p.2 = "running" then (p.1, "failed")
          else if p.2 = "pending" then (p.1, "skipped")
          else p) hkv
      simp only [] at h
      rw [if_neg h1, if_neg h2] at h
      exact h

/-- Witness for C5: a concrete stuck deployment — status "running", BUILD
recorded running, VERIFY pending — is force-failed by a watchdog cycle with
BUILD rewritten to failed and VERIFY to skipped. -/
theorem claim5_stale_recovery_and_watchdog_witness :
    forceFailDeployment (watchdogMessage (1000 - 10) "BUILD") 1000
      { status := "running"
        stepsStatus := [("EXTRACT", "completed"), ("BUILD", "running"), ("VERIFY", "pending")]
        currentStep := some "BUILD"
        errorMessage := none
        startedAt := some 10
        completedAt := none } ∈
      watchdogCycle 1000 900
        [{ status := "running"
           stepsStatus := [("EXTRACT", "completed"), ("BUILD", "running"), ("VERIFY", "pending")]
           currentStep := some "BUILD"
           errorMessage := none
           startedAt := some 10
           completedAt := none }] ∧
    ("BUILD", "failed") ∈
      (forceFailDeployment (watchdogMessage (1000 - 10) "BUILD") 1000
        { status := "running"
          stepsStatus := [("EXTRACT", "completed"), ("BUILD", "running"), ("VERIFY", "pending")]
          currentStep := some "BUILD"
          errorMessage := none
          startedAt := some 10
          completedAt := none }).stepsStatus ∧
    ("VERIFY", "skipped") ∈
      (forceFailDeployment (watchdogMessage (1000 - 10) "BUILD") 1000
        { status := "running"
          stepsStatus := [("EXTRACT", "completed"), ("BUILD", "running"), ("VERIFY", "pending")]
          currentStep := some "BUILD"
          errorMessage := none
          startedAt := some 10
          completedAt := none }).stepsStatus := by
  have h := claim5_stale_recovery_and_watchdog 1000 900
    [{ status := "running"
       stepsStatus := [("EXTRACT", "completed"), ("BUILD", "running"), ("VERIFY", "pending")]
       currentStep := some "BUILD"
       errorMessage := none
       startedAt := some 10
       completedAt := none }]
    { status := "running"
      stepsStatus := [("EXTRACT", "completed"), ("BUILD", "running"), ("VERIFY", "pending")]
      currentStep := some "BUILD"
      errorMessage := none
      startedAt := some 10
      completedAt := none } (by simp)
  refine ⟨h.2.1 10 rfl rfl (by norm_num), ?_, ?_⟩
  · exact (h.2.2 (watchdogMessage (1000 - 10) "BUILD")).2.2.2.1
      ("BUILD", "running") (by simp) rfl
  · exact (h.2.2 (watchdogMessage (1000 - 10) "BUILD")).2.2.2.2.1
      ("VERIFY", "pending") (by simp) rfl

/-! ## Helper lemmas about the demo deployer's URL-map update -/

theorem updateFirst_length {α : Type} (p : α → Bool) (f : α → α) (l : List α) :
    (updateFirst p f l).length = l.length := by
  induction l with
  | nil => rfl
  | cons x xs ih =>
    rw [updateFirst]
    split
    · rfl
    · simp [ih]

/-- Every member of a list survives `updateFirst` untouched, except the one
`find?` locates, which is replaced by its image. -/
theorem updateFirst_mem_of_find? {α : Type} (p : α → Bool) (f : α → α) :
    ∀ (l : List α) (a : α), l.find? p = some a →
      ∀ x ∈ l, x ∈ updateFirst p f l ∨ (x = a ∧ f a ∈ updateFirst p f l)
  | [], _, h => by simp at h
  | y :: ys, a, h => by
    intro x hx
    by_cases hy : p y = true
    · rw [List.find?_cons_of_pos _ hy] at h
      injection h with h
      subst h
      rw [updateFirst, if_pos hy]
      rcases List.mem_cons.mp hx with hxy | hxs
      · exact Or.inr ⟨hxy, List.mem_cons_self _ _⟩
      · exact Or.inl (List.mem_cons_of_mem _ hxs)
    · rw [List.find?_cons_of_neg _ hy] at h
      rw [updateFirst, if_neg hy]
      rcases List.mem_cons.mp hx with hxy | hxs
      · exact Or.inl (hxy ▸ List.mem_cons_self _ _)
      · rcases updateFirst_mem_of_find? p f ys a h x hxs with h1 | ⟨hxa, h2⟩
        · exact Or.inl (List.mem_cons_of_mem _ h1)
        · exact Or.inr ⟨hxa, List.mem_cons_of_mem _ h2⟩

/-- When the path matcher serving the demo domain already lists both desired
paths, `_ensure_url_map_path_rule` returns without issuing any patch. -/
theorem ensureUrlMapPathRule_present_noop (demoDomain websiteName bbSelfLink : String)
    (m : UrlMap) (hrule : HostRule) (tm : PathMatcher)
    (hfind : m.hostRules.find? (fun h => h.hosts.contains demoDomain) = some hrule)
    (hpm : m.pathMatchers.find? (fun pm => pm.name == hrule.pathMatcher) = some tm)
    (hpaths : ∀ p ∈ desiredPaths websiteName,
      ((tm.pathRules.map PathRule.paths).flatten).contains p = true) :
    ensureUrlMapPathRule demoDomain websiteName bbSelfLink m = Except.ok (m, []) := by
  have hall : ((desiredPaths websiteName).all
      (fun p => ((tm.pathRules.map PathRule.paths).flatten).contains p)) = true :=
    List.all_eq_true.mpr hpaths
  unfold ensureUrlMapPathRule
  rw [hfind]
  simp only [hpm, hall]
  simp

/-! ## Claim C2 -/

/-- C2: re-running each demo `ensure` operation against a world in which the
resource already exists with the desired spec — the storage bucket present,
the backend bucket present, both desired URL-map paths already listed by the
matcher serving the demo domain — issues zero mutating control-plane calls
and leaves the world unchanged. -/
theorem claim2_ensure_second_call_noop (env : GcsEnv)
    (bucketName backendBucketName demoDomain websiteName bbSelfLink : String)
    (m : UrlMap) (hrule : HostRule) (tm : PathMatcher)
    (hb : env.storageBuckets.contains bucketName = true)
    (hbb : env.backendBuckets.contains backendBucketName = true)
    (hfind : m.hostRules.find? (fun h => h.hosts.contains demoDomain) = some hrule)
    (hpm : m.pathMatchers.find? (fun pm => pm.name == hrule.pathMatcher) = some tm)
    (hpaths : ∀ p ∈ desiredPaths websiteName,
      ((tm.pathRules.map PathRule.paths).flatten).contains p = true) :
    ensureStorageBucket env bucketName = (env, []) ∧
    ensureBackendBucket env backendBucketName = (env, []) ∧
    ensureUrlMapPathRule demoDomain websiteName bbSelfLink m = Except.ok (m, []) := by
  refine ⟨?_, ?_, ?_⟩
  · have hb' : bucketName ∈ env.storageBuckets := by simpa using hb
    simp [ensureStorageBucket, hb']
  · have hbb' : backendBucketName ∈ env.backendBuckets := by simpa using hbb
    simp [ensureBackendBucket, hbb']
  · exact ensureUrlMapPathRule_present_noop demoDomain websiteName bbSelfLink m hrule tm
      hfind hpm hpaths

/-- Witness for C2: a concrete world holding the bucket, the backend bucket,
and a URL map already carrying both paths for "my-site"; every ensure is a
no-op with zero mutating calls. -/
theorem claim2_ensure_second_call_noop_witness :
    ensureStorageBucket
        { storageBuckets := ["demo-my-site-bucket-demo"]
          backendBuckets := ["demo-my-site-backend-demo"] }
        "demo-my-site-bucket-demo" =
      ({ storageBuckets := ["demo-my-site-bucket-demo"]
         backendBuckets := ["demo-my-site-backend-demo"] }, []) ∧
    ensureBackendBucket
        { storageBuckets := ["demo-my-site-bucket-demo"]
          backendBuckets := ["demo-my-site-backend-demo"] }
        "demo-my-site-backend-demo" =
      ({ storageBuckets := ["demo-my-site-bucket-demo"]
         backendBuckets := ["demo-my-site-backend-demo"] }, []) ∧
    ensureUrlMapPathRule "digitaldatatest.com" "my-site" "bb-self-link"
        { hostRules := [{ hosts := ["digitaldatatest.com"], pathMatcher := "demo-matcher" }]
          pathMatchers := [{ name := "demo-matcher"
                             pathRules := [{ paths := ["/my-site", "/my-site/*"]
                                             service := "bb-self-link" }] }] } =
      Except.ok
        ({ hostRules := [{ hosts := ["digitaldatatest.com"], pathMatcher := "demo-matcher" }]
           pathMatchers := [{ name := "demo-matcher"
                              pathRules := [{ paths := ["/my-site", "/my-site/*"]
                                              service := "bb-self-link" }] }] }, []) := by
  exact claim2_ensure_second_call_noop
    { storageBuckets := ["demo-my-site-bucket-demo"]
      backendBuckets := ["demo-my-site-backend-demo"] }
    "demo-my-site-bucket-demo" "demo-my-site-backend-demo"
    "digitaldatatest.com" "my-site" "bb-self-link"
    { hostRules := [{ hosts := ["digitaldatatest.com"], pathMatcher := "demo-matcher" }]
      pathMatchers := [{ name := "demo-matcher"
                         pathRules := [{ paths := ["/my-site", "/my-site/*"]
                                         service := "bb-self-link" }] }] }
    { hosts := ["digitaldatatest.com"], pathMatcher := "demo-matcher" }
    { name := "demo-matcher"
      pathRules := [{ paths := ["/my-site", "/my-site/*"], service := "bb-self-link" }] }
    (by decide) (by decide) (by decide) (by decide) (by decide)

/-! ## Claim C6 -/

/-- C6: inserting the path rule for a website into the shared demo URL map
preserves the host rules, the number of path matchers, and — in the matching
matcher as well as every other one — every existing path rule none of whose
paths is `/{name}` or `/{name}/*`; and when both desired paths are already
present the operation succeeds with the map unchanged and no patch issued. -/
theorem claim6_path_rule_insertion_frame (demoDomain websiteName bbSelfLink : String)
    (m : UrlMap) :
    (∀ m' calls, ensureUrlMapPathRule demoDomain websiteName bbSelfLink m =
        Except.ok (m', calls) →
      m'.hostRules = m.hostRules ∧
      m'.pathMatchers.length = m.pathMatchers.length ∧
      (∀ pm ∈ m.pathMatchers, ∀ r ∈ pm.pathRules,
        (∀ p ∈ r.paths, p ∉ desiredPaths websiteName) →
        ∃ pm' ∈ m'.pathMatchers, pm'.name = pm.name ∧ r ∈ pm'.pathRules)) ∧
    (∀ hrule tm,
      m.hostRules.find? (fun h => h.hosts.contains demoDomain) = some hrule →
      m.pathMatchers.find? (fun pm => pm.name == hrule.pathMatcher) = some tm →
      (∀ p ∈ desiredPaths websiteName,
        ((tm.pathRules.map PathRule.paths).flatten).contains p = true) →
      ensureUrlMapPathRule demoDomain websiteName bbSelfLink m = Except.ok (m, [])) := by
  constructor
  · intro m' calls h
    unfold ensureUrlMapPathRule at h
    cases hfind : m.hostRules.find? (fun hh => hh.hosts.contains demoDomain) with
    | none => rw [hfind] at h; exact absurd h (by simp)
    | some hrule =>
      rw [hfind] at h
      simp only [] at h
      cases hpm : m.pathMatchers.find? (fun pm => pm.name == hrule.pathMatcher) with
      | none => rw [hpm] at h; exact absurd h (by simp)
      | some tm =>
        rw [hpm] at h
        simp only [] at h
        by_cases hall : ((desiredPaths websiteName).all
            (fun p => ((tm.pathRules.map PathRule.paths).flatten).contains p)) = true
        · rw [if_pos hall] at h
          injection h with h
          injection h with h1 h2
          subst h1
          refine ⟨rfl, rfl, ?_⟩
          intro pm hpmm r hr _
          exact ⟨pm, hpmm, rfl, hr⟩
        · rw [if_neg hall] at h
          injection h with h
          injection h with h1 h2
          subst h1
          refine ⟨rfl, updateFirst_length _ _ _, ?_⟩
          intro pm hpmm r hr hunrel
          rcases updateFirst_mem_of_find?
              (fun pm : PathMatcher => pm.name == hrule.pathMatcher)
              (fun pm : PathMatcher =>
                { pm with pathRules :=
                    (tm.pathRules.filter
                      (fun rule => !((desiredPaths websiteName).any
                        (fun p => rule.paths.contains p)))) ++
                    [{ paths := desiredPaths websiteName, service := bbSelfLink }] })
              m.pathMatchers tm hpm pm hpmm with h1 | ⟨hptm, h2⟩
          · exact ⟨pm, h1, rfl, hr⟩
          · subst hptm
            refine ⟨_, h2, rfl, ?_⟩
            apply List.mem_append_left
            apply List.mem_filter.mpr
            refine ⟨hr, ?_⟩
            simp only [Bool.not_eq_true', List.any_eq_false, decide_eq_true_eq]
            simp
            intro x hx hxr
            exact hunrel x hxr hx
  · intro hrule tm hfind hpm hpaths
    exact ensureUrlMapPathRule_present_noop demoDomain websiteName bbSelfLink m hrule tm
      hfind hpm hpaths

/-- Witness for C6: inserting the rule for "my-site" into a map that already
carries an unrelated rule for "/other" keeps that rule, in the same matcher,
in the patched map. -/
theorem claim6_path_rule_insertion_frame_witness :
    ∃ pm' ∈ (UrlMap.mk
        [{ hosts := ["digitaldatatest.com"], pathMatcher := "demo-matcher" }]
        [{ name := "demo-matcher"
           pathRules := [{ paths := ["/other", "/other/*"], service := "svc-other" },
                         { paths := ["/my-site", "/my-site/*"], service := "bb-link" }] }]).pathMatchers,
      pm'.name = (PathMatcher.mk "demo-matcher"
        [{ paths := ["/other", "/other/*"], service := "svc-other" }]).name ∧
      ({ paths := ["/other", "/other/*"], service := "svc-other" } : PathRule) ∈ pm'.pathRules := by
  have h := (claim6_path_rule_insertion_frame "digitaldatatest.com" "my-site" "bb-link"
      (UrlMap.mk
        [{ hosts := ["digitaldatatest.com"], pathMatcher := "demo-matcher" }]
        [{ name := "demo-matcher"
           pathRules := [{ paths := ["/other", "/other/*"], service := "svc-other" }] }])).1
      (UrlMap.mk
        [{ hosts := ["digitaldatatest.com"], pathMatcher := "demo-matcher" }]
        [{ name := "demo-matcher"
           pathRules := [{ paths := ["/other", "/other/*"], service := "svc-other" },
                         { paths := ["/my-site", "/my-site/*"], service := "bb-link" }] }])
      ["compute.urlMaps.patch"] (by rfl)
  exact h.2.2
    (PathMatcher.mk "demo-matcher"
      [{ paths := ["/other", "/other/*"], service := "svc-other" }])
    (by decide)
    ({ paths := ["/other", "/other/*"], service := "svc-other" } : PathRule)
    (by decide) (by decide)

/-! ## Claim C7 -/

/-- C7 counterexample: when the backend-bucket delete fails with something
other than not-found, `DemoDeployer.delete` aborts — the storage-bucket
deletion is never attempted and the error surfaces out of the teardown
instead of being logged as a non-fatal warning. -/
theorem claim7_teardown_counterexample :
    demoDelete
        { ruleRemoval := Except.ok ()
          backendDelete := DeleteResp.err "backendBuckets.delete: resource in use"
          storageDelete := DeleteResp.ok } =
      (["removeUrlMapPathRule", "deleteBackendBucket"],
        some "backendBuckets.delete: resource in use") ∧
    "deleteStorageBucket" ∉
      (demoDelete
        { ruleRemoval := Except.ok ()
          backendDelete := DeleteResp.err "backendBuckets.delete: resource in use"
          storageDelete := DeleteResp.ok }).1 := by
  refine ⟨rfl, ?_⟩
  decide

/-- C7 amended: a not-found response during any delete step of the demo
teardown is absorbed as already-satisfied success, and the only errors the
teardown can surface come from genuine non-not-found failures; but such a
failure aborts the remaining demo resource deletions rather than being a
non-fatal warning — it is the deletion API route that catches it as a
warning and still removes the persisted record. -/
theorem claim7_teardown_amended (w : DemoDeleteResponses) :
    (w.ruleRemoval = Except.ok () → w.backendDelete = DeleteResp.notFound →
      w.storageDelete = DeleteResp.notFound →
      demoDelete w =
        (["removeUrlMapPathRule", "deleteBackendBucket", "deleteStorageBucket"], none)) ∧
    (∀ e, (demoDelete w).2 = some e →
      w.ruleRemoval = Except.error e ∨ w.backendDelete = DeleteResp.err e ∨
        w.storageDelete = DeleteResp.err e) ∧
    (∀ msg, w.ruleRemoval = Except.ok () → w.backendDelete = DeleteResp.err msg →
      demoDelete w = (["removeUrlMapPathRule", "deleteBackendBucket"], some msg)) ∧
    (∀ e, deleteDeploymentRoute true DeploymentMode.demo (Except.error e) =
      Except.ok { events := ["provisionerTeardown", "deleteRecord"]
                  warnings := ["Demo cleanup error: " ++ e] }) := by
  obtain ⟨rr, bd, sd⟩ := w
  refine ⟨?_, ?_, ?_, ?_⟩
  · rintro rfl rfl rfl
    rfl
  · intro e he
    cases rr <;> cases bd <;> cases sd <;>
      simp_all [demoDelete, deleteBackendBucket, deleteStorageBucket]
  · rintro msg rfl rfl
    rfl
  · intro e
    rfl

/-- Witness for C7's amended statement: not-found responses for both bucket
deletions let the full teardown complete successfully, and a route-level
demo deletion whose teardown raised still removes the record with a
warning. -/
theorem claim7_teardown_amended_witness :
    demoDelete
        { ruleRemoval := Except.ok ()
          backendDelete := DeleteResp.notFound
          storageDelete := DeleteResp.notFound } =
      (["removeUrlMapPathRule", "deleteBackendBucket", "deleteStorageBucket"], none) ∧
    deleteDeploymentRoute true DeploymentMode.demo
        (Except.error "backendBuckets.delete: resource in use") =
      Except.ok { events := ["provisionerTeardown", "deleteRecord"]
                  warnings := ["Demo cleanup error: backendBuckets.delete: resource in use"] } := by
  have h := claim7_teardown_amended
    { ruleRemoval := Except.ok ()
      backendDelete := DeleteResp.notFound
      storageDelete := DeleteResp.notFound }
  refine ⟨h.1 rfl rfl rfl, ?_⟩
  have h4 := h.2.2.2 "backendBuckets.delete: resource in use"
  simpa using h4

/-! ## Helper lemmas about the log broadcast -/

theorem putAll_unbounded : ∀ (msgs : List String) (pre : List String),
    putAll { maxsize := 0, items := pre } msgs = { maxsize := 0, items := pre ++ msgs }
  | [], pre => by simp [putAll]
  | m :: rest, pre => by
      have h1 : putNowait { maxsize := 0, items := pre } m =
          { maxsize := 0, items := pre ++ [m] } := by
        simp [putNowait]
      show putAll (putNowait { maxsize := 0, items := pre } m) rest = _
      rw [h1, putAll_unbounded rest (pre ++ [m])]
      simp

theorem putAll_full (c : Nat) (hc : 0 < c) : ∀ (msgs : List String) (pre : List String),
    c ≤ pre.length →
    putAll { maxsize := c, items := pre } msgs = { maxsize := c, items := pre }
  | [], _, _ => by simp [putAll]
  | m :: rest, pre, hful => by
      have h1 : putNowait { maxsize := c, items := pre } m = { maxsize := c, items := pre } := by
        simp [putNowait, hc, hful]
      show putAll (putNowait { maxsize := c, items := pre } m) rest = _
      rw [h1]
      exact putAll_full c hc rest pre hful

theorem putAll_bounded (c : Nat) (hc : 0 < c) : ∀ (msgs : List String) (pre : List String),
    pre.length ≤ c →
    putAll { maxsize := c, items := pre } msgs =
      { maxsize := c, items := pre ++ msgs.take (c - pre.length) }
  | [], pre, _ => by simp [putAll]
  | m :: rest, pre, hlen => by
      by_cases hful : c ≤ pre.length
      · rw [putAll_full c hc (m :: rest) pre hful]
        have hz : c - pre.length = 0 := Nat.sub_eq_zero_of_le hful
        simp [hz]
      · have hlt : pre.length < c := lt_of_not_le hful
        have h1 : putNowait { maxsize := c, items := pre } m =
            { maxsize := c, items := pre ++ [m] } := by
          simp [putNowait]
          omega
        show putAll (putNowait { maxsize := c, items := pre } m) rest = _
        rw [h1, putAll_bounded c hc rest (pre ++ [m]) (by simp; omega)]
        have hn : c - pre.length = (c - (pre.length + 1)) + 1 := by omega
        simp [hn, List.take_succ_cons]

theorem publishAll_eq_map : ∀ (msgs : List String) (qs : List LogQueue),
    publishAll qs msgs = qs.map (fun q => putAll q msgs)
  | [], qs => by simp [publishAll, putAll]
  | m :: rest, qs => by
      show publishAll (broadcastSync qs m) rest = _
      rw [publishAll_eq_map rest (broadcastSync qs m)]
      simp only [broadcastSync, List.map_map]
      rfl

/-! ## Claim C9 -/

/-- C9 counterexample: the queue `subscribe_logs` registers is unbounded
(maxsize 0), not bounded; and a bounded listener of capacity 1 that sees two
publishes keeps the first message — `put_nowait` drops the newest message on
overflow — not the most recent one as the claim states. -/
theorem claim9_log_delivery_counterexample :
    subscribeLogsQueue.maxsize = 0 ∧
    publishAll [{ maxsize := 1, items := [] }] ["m1", "m2"] =
      [{ maxsize := 1, items := ["m1"] }] ∧
    lastN 1 ["m1", "m2"] = ["m2"] ∧
    publishAll [{ maxsize := 1, items := [] }] ["m1", "m2"] ≠
      [{ maxsize := 1, items := lastN 1 ["m1", "m2"] }] := by
  refine ⟨rfl, rfl, rfl, ?_⟩
  decide

/-- C9 amended: a listener attached before the publishes holds the unbounded
queue `subscribe_logs` creates and therefore receives all N messages; a
bounded queue of capacity c < N instead retains the first c messages (drop
newest, not most recent); and publication acts on every listener's queue
independently and never blocks — a full queue drops the message for that
listener only, leaving delivery to every other listener unchanged. -/
theorem claim9_log_delivery_amended (qs : List LogQueue) (msgs : List String) :
    putAll subscribeLogsQueue msgs = { maxsize := 0, items := msgs } ∧
    (∀ c : Nat, 0 < c →
      putAll { maxsize := c, items := [] } msgs = { maxsize := c, items := msgs.take c }) ∧
    (publishAll qs msgs).length = qs.length ∧
    (∀ i : Nat, (publishAll qs msgs)[i]? = (qs[i]?).map (fun q => putAll q msgs)) := by
  refine ⟨?_, ?_, ?_, ?_⟩
  · have h := putAll_unbounded msgs []
    simpa [subscribeLogsQueue] using h
  · intro c hc
    have h := putAll_bounded c hc msgs [] (by simp)
    simpa using h
  · rw [publishAll_eq_map]
    simp
  · intro i
    rw [publishAll_eq_map]
    simp

/-- Witness for C9's amended statement: three publishes deliver all three
messages to a pre-attached (unbounded) listener, while a capacity-2 queue
keeps the first two. -/
theorem claim9_log_delivery_amended_witness :
    putAll subscribeLogsQueue ["a", "b", "c"] = { maxsize := 0, items := ["a", "b", "c"] } ∧
    putAll { maxsize := 2, items := [] } ["a", "b", "c"] =
      { maxsize := 2, items := ["a", "b"] } := by
  have h := claim9_log_delivery_amended [] ["a", "b", "c"]
  refine ⟨h.1, ?_⟩
  have h2 := h.2.1 2 (by norm_num)
  simpa using h2

/-! ## Claim C10 -/

/-- C10 counterexample: the Prod deployer exposes no delete operation, and
deleting an existing Prod deployment removes the persisted record without
any provisioner teardown having been triggered. -/
theorem claim10_delete_dispatch_counterexample :
    prodDeployerSurface.hasDelete = false ∧
    deleteDeploymentRoute true DeploymentMode.prod (Except.ok ()) =
      Except.ok { events := ["deleteRecord"], warnings := [] } ∧
    "provisionerTeardown" ∉
      routeEvents (deleteDeploymentRoute true DeploymentMode.prod (Except.ok ())) := by
  refine ⟨rfl, rfl, ?_⟩
  decide

/-- C10 amended: the Demo and CloudRun provisioners expose both deploy and
delete, and deleting an existing deployment in those modes runs the
provisioner teardown before removing the persisted record (removing it even
when teardown fails); the Prod provisioner exposes only deploy, and a Prod
deletion removes the record without any teardown; deleting a missing record
is a 404. -/
theorem claim10_delete_dispatch_amended (teardown : Except String Unit) :
    demoDeployerSurface.hasDeploy = true ∧ demoDeployerSurface.hasDelete = true ∧
    cloudrunDeployerSurface.hasDeploy = true ∧ cloudrunDeployerSurface.hasDelete = true ∧
    prodDeployerSurface.hasDeploy = true ∧ prodDeployerSurface.hasDelete = false ∧
    routeEvents (deleteDeploymentRoute true DeploymentMode.demo teardown) =
      ["provisionerTeardown", "deleteRecord"] ∧
    routeEvents (deleteDeploymentRoute true DeploymentMode.cloudrun teardown) =
      ["provisionerTeardown", "deleteRecord"] ∧
    routeEvents (deleteDeploymentRoute true DeploymentMode.prod teardown) =
      ["deleteRecord"] ∧
    deleteDeploymentRoute false DeploymentMode.demo teardown =
      Except.error "404: Deployment not found" := by
  cases teardown <;>
    simp [deleteDeploymentRoute, routeEvents, demoDeployerSurface,
      cloudrunDeployerSurface, prodDeployerSurface]

/-! ## Helper lemmas about the operation poller -/

theorem intervalSeq_ge_two : ∀ n, 2 ≤ intervalSeq n
  | 0 => le_refl 2
  | n + 1 => by
      have h := intervalSeq_ge_two n
      rw [intervalSeq, le_min_iff]
      exact ⟨by nlinarith, by norm_num⟩

theorem intervalSeq_le_ten : ∀ n, intervalSeq n ≤ 10
  | 0 => by norm_num [intervalSeq]
  | _ + 1 => min_le_right _ _

/-- The termination argument, reused as a lemma: each sleep consumes at
least 2 of the remaining time before the deadline. -/
theorem ceil_toNat_decreasing {deadline clock interval : ℚ} (hi : 2 ≤ interval)
    (hc : clock < deadline) :
    (Int.ceil (deadline - (clock + interval))).toNat <
      (Int.ceil (deadline - clock)).toNat := by
  have hpos : 0 < Int.ceil (deadline - clock) := Int.ceil_pos.mpr (sub_pos.mpr hc)
  have hmono : Int.ceil (deadline - (clock + interval)) ≤ Int.ceil (deadline - clock - 2) :=
    Int.ceil_le_ceil (by linarith)
  have heq : Int.ceil (deadline - clock - (2 : ℚ)) = Int.ceil (deadline - clock) - 2 := by
    have h := Int.ceil_sub_int (deadline - clock) (2 : ℤ)
    push_cast at h
    exact h
  omega

/-- Reindexing identity for the poll schedule. -/
theorem range_map_pollTime_shift (n L : Nat) :
    pollTime n :: (List.range L).map (fun j => pollTime (n + 1 + j)) =
      (List.range (L + 1)).map (fun j => pollTime (n + j)) := by
  rw [List.range_succ_eq_map, List.map_cons, List.map_map]
  have h1 : pollTime n = (fun j => pollTime (n + j)) 0 := by simp
  have h2 : (List.range L).map (fun j => pollTime (n + 1 + j)) =
      (List.range L).map ((fun j => pollTime (n + j)) ∘ Nat.succ) := by
    apply List.map_congr_left
    intro a _
    show pollTime (n + 1 + a) = pollTime (n + (a + 1))
    congr 1
    omega
  rw [h2]
  exact congrArg₂ List.cons h1 rfl

/-- Full characterization of the poller loop started at the n-th scheduled
poll: the polls it issues are exactly the scheduled times, every poll before
the last saw a non-terminal pre-deadline response, and the outcome reflects
the last poll — its terminal result, its terminal error detail, or its being
past the deadline while still non-terminal. -/
theorem waitLoop_spec (polls : ℚ → OpPoll) (deadline : ℚ) :
    ∀ (fuel n : Nat), (Int.ceil (deadline - pollTime n)).toNat ≤ fuel →
    ∃ L : Nat, 1 ≤ L ∧
      (waitLoop polls deadline (pollTime n) (intervalSeq n) (intervalSeq_ge_two n)).2 =
        (List.range L).map (fun j => pollTime (n + j)) ∧
      (∀ j, j + 1 < L →
        (polls (pollTime (n + j))).done = false ∧ pollTime (n + j) < deadline) ∧
      ((waitLoop polls deadline (pollTime n) (intervalSeq n) (intervalSeq_ge_two n)).1 =
          WaitOutcome.completed →
        (polls (pollTime (n + (L - 1)))).done = true ∧
        (polls (pollTime (n + (L - 1)))).errorMsg = none) ∧
      (∀ msg,
        (waitLoop polls deadline (pollTime n) (intervalSeq n) (intervalSeq_ge_two n)).1 =
          WaitOutcome.failed msg →
        (polls (pollTime (n + (L - 1)))).done = true ∧
        (polls (pollTime (n + (L - 1)))).errorMsg = some msg) ∧
      ((waitLoop polls deadline (pollTime n) (intervalSeq n) (intervalSeq_ge_two n)).1 =
          WaitOutcome.timedOut →
        (polls (pollTime (n + (L - 1)))).done = false ∧
        deadline ≤ pollTime (n + (L - 1))) := by
  intro fuel
  induction fuel using Nat.strong_induction_on with
  | _ fuel ih =>
    intro n hmeas
    by_cases hdone : (polls (pollTime n)).done = true
    · cases herr : (polls (pollTime n)).errorMsg with
      | some m =>
        have heq : waitLoop polls deadline (pollTime n) (intervalSeq n) (intervalSeq_ge_two n) =
            (WaitOutcome.failed m, [pollTime n]) := by
          rw [waitLoop, if_pos hdone, herr]
        refine ⟨1, le_refl 1, ?_, ?_, ?_, ?_, ?_⟩
        · simp [heq, List.range_succ]
        · intro j hj; omega
        · simp [heq]
        · simp [heq, hdone, herr]
        · simp [heq]
      | none =>
        have heq : waitLoop polls deadline (pollTime n) (intervalSeq n) (intervalSeq_ge_two n) =
            (WaitOutcome.completed, [pollTime n]) := by
          rw [waitLoop, if_pos hdone, herr]
        refine ⟨1, le_refl 1, ?_, ?_, ?_, ?_, ?_⟩
        · simp [heq, List.range_succ]
        · intro j hj; omega
        · simp [heq, hdone, herr]
        · simp [heq]
        · simp [heq]
    · by_cases hlate : deadline ≤ pollTime n
      · have heq : waitLoop polls deadline (pollTime n) (intervalSeq n) (intervalSeq_ge_two n) =
            (WaitOutcome.timedOut, [pollTime n]) := by
          rw [waitLoop, if_neg hdone, if_pos hlate]
        have hdonef : (polls (pollTime n)).done = false := by simpa using hdone
        refine ⟨1, le_refl 1, ?_, ?_, ?_, ?_, ?_⟩
        · simp [heq, List.range_succ]
        · intro j hj; omega
        · simp [heq]
        · simp [heq]
        · simp [heq, hdonef, hlate]
      · have hc : pollTime n < deadline := lt_of_not_le hlate
        have hstep : pollTime (n + 1) = pollTime n + intervalSeq n := rfl
        have hdec := ceil_toNat_decreasing (intervalSeq_ge_two n) hc
        obtain ⟨L, hL1, htr, hmid, hcomp, hfail, htime⟩ :=
          ih ((Int.ceil (deadline - pollTime (n + 1))).toNat)
            (by rw [hstep]; omega) (n + 1) (le_refl _)
        have heq : waitLoop polls deadline (pollTime n) (intervalSeq n) (intervalSeq_ge_two n) =
            ((waitLoop polls deadline (pollTime (n + 1)) (intervalSeq (n + 1))
                (intervalSeq_ge_two (n + 1))).1,
              pollTime n ::
                (waitLoop polls deadline (pollTime (n + 1)) (intervalSeq (n + 1))
                  (intervalSeq_ge_two (n + 1))).2) := by
          rw [waitLoop, if_neg hdone, if_neg hlate]
          exact rfl
        have heq1 : (waitLoop polls deadline (pollTime n) (intervalSeq n)
            (intervalSeq_ge_two n)).1 =
            (waitLoop polls deadline (pollTime (n + 1)) (intervalSeq (n + 1))
              (intervalSeq_ge_two (n + 1))).1 := by
          rw [heq]
        have heq2 : (waitLoop polls deadline (pollTime n) (intervalSeq n)
            (intervalSeq_ge_two n)).2 =
            pollTime n ::
              (waitLoop polls deadline (pollTime (n + 1)) (intervalSeq (n + 1))
                (intervalSeq_ge_two (n + 1))).2 := by
          rw [heq]
        refine ⟨L + 1, by omega, ?_, ?_, ?_, ?_, ?_⟩
        · rw [heq2, htr]
          exact range_map_pollTime_shift n L
        · intro j hj
          cases j with
          | zero =>
            constructor
            · simpa using hdone
            · simpa using hc
          | succ j' =>
            have h := hmid j' (by omega)
            have hidx : n + 1 + j' = n + (j' + 1) := by omega
            rw [hidx] at h
            exact h
        · rw [heq1]
          intro hco
          have h := hcomp hco
          have hidx : n + 1 + (L - 1) = n + (L + 1 - 1) := by omega
          rw [hidx] at h
          exact h
        · intro msg
          rw [heq1]
          intro hf
          have h := hfail msg hf
          have hidx : n + 1 + (L - 1) = n + (L + 1 - 1) := by omega
          rw [hidx] at h
          exact h
        · rw [heq1]
          intro ht
          have h := htime ht
          have hidx : n + 1 + (L - 1) = n + (L + 1 - 1) := by omega
          rw [hidx] at h
          exact h

/-! ## Claim C8 -/

/-- C8: `wait_for_global_operation` polls at an initial 2-second interval
with ×1.3 multiplicative backoff capped at 10 seconds; every poll before the
last saw a non-terminal response before the deadline; a terminal response
with an error yields the failure outcome carrying exactly the remote error
detail; a terminal error-free response yields normal completion; and a poll
at or past the deadline that is still non-terminal — in particular, an
operation that never reaches a terminal state — yields the timeout
outcome. -/
theorem claim8_operation_poller_spec (polls : ℚ → OpPoll) (timeout : ℚ) :
    intervalSeq 0 = 2 ∧
    (∀ j, intervalSeq (j + 1) = min (intervalSeq j * (13 / 10)) 10) ∧
    (∀ j, 2 ≤ intervalSeq j ∧ intervalSeq j ≤ 10) ∧
    pollTime 0 = 0 ∧
    (∀ j, pollTime (j + 1) = pollTime j + intervalSeq j) ∧
    (∃ L : Nat, 1 ≤ L ∧
      (waitForGlobalOperation polls timeout).2 = (List.range L).map pollTime ∧
      (∀ j, j + 1 < L → (polls (pollTime j)).done = false ∧ pollTime j < timeout) ∧
      ((waitForGlobalOperation polls timeout).1 = WaitOutcome.completed →
        (polls (pollTime (L - 1))).done = true ∧
        (polls (pollTime (L - 1))).errorMsg = none) ∧
      (∀ msg, (waitForGlobalOperation polls timeout).1 = WaitOutcome.failed msg →
        (polls (pollTime (L - 1))).done = true ∧
        (polls (pollTime (L - 1))).errorMsg = some msg) ∧
      ((waitForGlobalOperation polls timeout).1 = WaitOutcome.timedOut →
        (polls (pollTime (L - 1))).done = false ∧ timeout ≤ pollTime (L - 1))) ∧
    ((∀ t, (polls t).done = false) →
      (waitForGlobalOperation polls timeout).1 = WaitOutcome.timedOut) := by
  have hwDef : waitForGlobalOperation polls timeout =
      waitLoop polls timeout (pollTime 0) (intervalSeq 0) (intervalSeq_ge_two 0) := rfl
  obtain ⟨L, hL1, htr, hmid, hcomp, hfail, htime⟩ :=
    waitLoop_spec polls timeout ((Int.ceil (timeout - pollTime 0)).toNat) 0 (le_refl _)
  refine ⟨rfl, fun j => rfl, fun j => ⟨intervalSeq_ge_two j, intervalSeq_le_ten j⟩,
    rfl, fun j => rfl, ⟨L, hL1, ?_, ?_, ?_, ?_, ?_⟩, ?_⟩
  · rw [hwDef, htr]
    simp
  · intro j hj
    have h := hmid j hj
    simpa using h
  · rw [hwDef]
    intro hco
    have h := hcomp hco
    simpa using h
  · intro msg
    rw [hwDef]
    intro hf
    have h := hfail msg hf
    simpa using h
  · rw [hwDef]
    intro ht
    have h := htime ht
    simpa using h
  · intro hnever
    rw [hwDef]
    cases houtcome : (waitLoop polls timeout (pollTime 0) (intervalSeq 0)
        (intervalSeq_ge_two 0)).1 with
    | completed =>
        have h := (hcomp houtcome).1
        rw [hnever] at h
        exact absurd h (by simp)
    | failed msg =>
        have h := (hfail msg houtcome).1
        rw [hnever] at h
        exact absurd h (by simp)
    | timedOut => rfl

/-- Witness for C8: an operation that never reports a terminal state makes
the poller raise the timeout outcome. -/
theorem claim8_operation_poller_spec_witness :
    (waitForGlobalOperation (fun _ => { done := false, errorMsg := none }) 5).1 =
      WaitOutcome.timedOut :=
  (claim8_operation_poller_spec (fun _ => { done := false, errorMsg := none }) 5).2.2.2.2.2.2
    (fun _ => rfl)

end WebDeploy
